import Mathlib

/-!
Formal model of the Laundro-Bench simulation core, shallow-embedded from the
Python sources (src/engine.py, src/mechanics.py, src/models.py, src/config.py,
src/scorer.py, src/generator.py).

Modelling conventions:
* Python floats are embedded as exact rationals (ℚ); Python ints as ℤ.
  Binary floating point rounding is not modelled; every concrete input used
  below is chosen so that the exact-rational value agrees with the float run.
* The numpy RandomState is abstracted as a stream of draws: a function giving
  the n-th unit-interval draw and the n-th raw integer draw, plus a cursor.
  Each call to random/randint/uniform/choice consumes one position, exactly
  in the order of the source.  `randint lo hi` yields a value in [lo, hi) for
  every stream, and every value in that range is realised by some stream.
* Python dicts with a fixed key set (pricing, inventory) are records; the
  maintenance-history dict is an association list with prepend-update.
* Log f-strings are embedded as structured constructors carrying exactly the
  interpolated values of the corresponding source line.
* Python `int(x)` (truncation toward zero) is `pyInt`.
* `day % interval` is embedded with Int.emod; for a positive interval the
  zero test agrees with Python.
-/

/-- Python `int(x)`: truncation toward zero. -/
def pyInt (q : ℚ) : ℤ := if 0 ≤ q then ⌊q⌋ else ⌈q⌉

/-- Python `round(x)` on a rational: round half to even (banker rounding). -/
def roundHalfEven (q : ℚ) : ℤ :=
  let f : ℤ := ⌊q⌋
  if q - f < 1/2 then f
  else if q - f > 1/2 then f + 1
  else if f % 2 = 0 then f else f + 1

/-- Python `round(x, 2)`. -/
def round2 (q : ℚ) : ℚ := (roundHalfEven (q * 100) : ℚ) / 100

/-- Python list slice `l[-n:]`: the last `n` elements. -/
def lastN {α : Type} (n : Nat) (l : List α) : List α := l.drop (l.length - n)

/-- Abstraction of numpy RandomState: two raw streams and a cursor. -/
structure Rng where
  flt : Nat → ℚ
  intStream : Nat → ℤ
  k : Nat

namespace Rng

/-- A well-formed stream yields unit-interval floats, as numpy random() does. -/
def WF (r : Rng) : Prop := ∀ n, 0 ≤ r.flt n ∧ r.flt n < 1

def bump (r : Rng) : Rng := { r with k := r.k + 1 }

/-- `rng.random()`: one draw in [0,1). -/
def random (r : Rng) : ℚ × Rng := (r.flt r.k, r.bump)

/-- `rng.randint(lo, hi)`: one integer draw in [lo, hi). -/
def randint (r : Rng) (lo hi : ℤ) : ℤ × Rng := (lo + r.intStream r.k % (hi - lo), r.bump)

/-- `rng.uniform(a, b)`: one draw in [a, b). -/
def uniform (r : Rng) (a b : ℚ) : ℚ × Rng := (a + r.flt r.k * (b - a), r.bump)

/-- `rng.choice(l)` over a list of length `n`: the chosen index. -/
def choiceIdx (r : Rng) (n : ℕ) : ℕ × Rng := ((r.intStream r.k).toNat % n, r.bump)

end Rng

/-- Machine.type in models.py: Literal of washer and dryer. -/
inductive MachineType
  | washer
  | dryer
deriving DecidableEq, Repr

/-- Machine.status in models.py: Literal of working, broken, maintenance. -/
inductive MachineStatus
  | working
  | broken
  | maintenance
deriving DecidableEq, Repr

/-- models.Machine. -/
structure Machine where
  id : ℤ
  type : MachineType
  status : MachineStatus := .working
  age_cycles : ℤ := 0
  health : ℚ := 1
  efficiency : ℚ := 1
deriving DecidableEq, Repr

/-- The scenario config_overrides dict, with the defaults each
`config.get(key, default)` call site in the source supplies.  Every key read
anywhere in engine.py or mechanics.py appears here; `initial_cash` and
`initial_debt` keep their optionality because their defaults depend on the
slumlord flag. -/
structure Config where
  supply_shock : Bool := false
  slumlord_start : Bool := false
  initial_cash : Option ℚ := none
  initial_debt : Option ℚ := none
  lemon_law : Bool := false
  repair_cost_mult : ℚ := 1
  grifter_repairs : Bool := false
  grift_prob : ℚ := 3/10
  rent_mult : ℚ := 1
  competitor_active : Bool := false
  inflation_interval : ℤ := 7
  hyper_inflation : Bool := false
  heatwave : Bool := false
  base_demand_mult : ℚ := 1
  water_rationing : Bool := false
  interest_rate : ℚ := 1/1000
  price_sensitivity : ℚ := 1
  satisfaction_threshold : ℚ := 80
  gentrification_strict : Bool := false
  degradation_mult : ℚ := 1
deriving DecidableEq, Repr

/-- state.inventory dict: the two keys the engine uses. -/
structure Inventory where
  soap : ℤ
  machine_parts : ℤ
deriving DecidableEq, Repr

/-- state.pricing dict: the two service keys. -/
structure Pricing where
  wash : ℚ
  dry : ℚ
deriving DecidableEq, Repr

/-- Condition labels of the inspection report (engine.py lines 138-152). -/
inductive Condition
  | excellent
  | good
  | fair
  | poor
  | critical
deriving DecidableEq, Repr

/-- Structured image of every f-string log line the engine can emit.  Each
constructor corresponds to one source line and carries its interpolated
values. -/
inductive LogLine
  | finance_paid_debt (amount : ℚ)
  | finance_declined
  | order_bought (qty : ℤ) (item : String) (cost : ℚ) (arrival : ℤ)
  | error_machine_not_found (id : ℤ)
  | inspect_report (id : ℤ) (cond : Condition) (lo hi : ℤ)
  | inspect_insufficient_funds
  | maint_cheap_completed (id : ℤ)
  | maint_cheap_failed (id : ℤ)
  | maint_premium_restored (id : ℤ)
  | maint_replaced (id : ℤ)
  | fine_failed_health_inspection
  | critical_power_outage
  | inflation_spike (mult : ℚ)
  | water_rationing_in_effect
  | critical_out_of_soap
  | machine_stopped (id : ℤ)
  | severe_symptom (id : ℤ) (choice : ℕ)
  | mild_symptom (id : ℤ) (choice : ℕ)
  | minor_symptom (id : ℤ) (choice : ℕ)
  | slight_noise (id : ℤ)
  | news_regime_shift
  | rumor_competitor_prices
  | cascade_wear (adj_id : ℤ) (broken_id : ℤ)
  | health_inspection_failed (fine : ℚ)
  | health_inspection_unsat_report
  | health_inspection_passed
deriving DecidableEq, Repr

/-- models.SimulationState. -/
structure SimState where
  day : ℤ
  cash : ℚ
  debt : ℚ
  inventory : Inventory
  pricing : Pricing
  marketing_spend : ℚ
  customer_satisfaction : ℚ := 100
  machines : List Machine
  log_history : List LogLine := []
  agent_memory : String := ""
deriving Repr

-- ===== mechanics.py =====

/-- mechanics.calculate_degradation: the bathtub curve.  Returns the per-cycle
health decrement and the advanced random stream. -/
def calculate_degradation (m : Machine) (rng : Rng) (multiplier : ℚ) : ℚ × Rng :=
  if m.age_cycles < 100 then
    let (r, rng) := rng.random
    if r < 1/20 then (1/20 * multiplier, rng)
    else (1/1000 * multiplier, rng)
  else if m.age_cycles ≤ 2000 then
    let (r, rng) := rng.random
    if r < 1/2000 then (1/10 * multiplier, rng)
    else (1/1000 * multiplier, rng)
  else
    let age_factor : ℚ := ((m.age_cycles : ℚ) - 2000) / 1000
    (1/1000 * (1 + age_factor ^ 2) * multiplier, rng)

/-- mechanics.generate_logs: vague symptom lines; flips status to broken on
health ≤ 0.  Returns (lines, machine, rng). -/
def generate_logs (m : Machine) (rng : Rng) : List LogLine × Machine × Rng :=
  if m.health ≤ 0 then
    ([.machine_stopped m.id], { m with status := .broken }, rng)
  else if m.health < 1/5 then
    let (r, rng) := rng.random
    if r < 7/10 then
      let (i, rng) := rng.choiceIdx 4
      ([.severe_symptom m.id i], m, rng)
    else ([], m, rng)
  else if m.health < 2/5 then
    let (r, rng) := rng.random
    if r < 1/2 then
      let (i, rng) := rng.choiceIdx 3
      ([.mild_symptom m.id i], m, rng)
    else ([], m, rng)
  else if m.health < 3/5 then
    let (r, rng) := rng.random
    if r < 1/4 then
      let (i, rng) := rng.choiceIdx 2
      ([.minor_symptom m.id i], m, rng)
    else ([], m, rng)
  else if m.health < 4/5 then
    let (r, rng) := rng.random
    if r < 1/10 then ([.slight_noise m.id], m, rng)
    else ([], m, rng)
  else ([], m, rng)

/-- mechanics.calculate_demand. -/
def calculate_demand (base_demand : ℤ) (pricing : Pricing) (satisfaction : ℚ)
    (rng : Rng) (cfg : Config) : ℤ × Rng :=
  let sensitivity := cfg.price_sensitivity
  let p1 : ℚ := if pricing.wash > 5 then (pricing.wash - 5) * 10 * sensitivity else 0
  let price_penalty : ℚ :=
    p1 + (if pricing.dry > 4 then (pricing.dry - 4) * 10 * sensitivity else 0)
  let sat_modifier : ℚ :=
    if satisfaction < 50 then 1/2
    else if satisfaction < cfg.satisfaction_threshold ∧ cfg.gentrification_strict then 0
    else 1
  let (flux, rng) := rng.randint (-5) 6
  let demand := pyInt (((base_demand : ℚ) - price_penalty + (flux : ℚ)) * sat_modifier)
  let demand := if cfg.competitor_active then pyInt ((demand : ℚ) * (7/10)) else demand
  (max 0 demand, rng)

-- ===== scorer.py =====

/-- scorer.calculate_net_business_value. -/
def calculate_net_business_value (st : SimState) : ℚ :=
  let asset_value := st.machines.foldl
    (fun acc m =>
      let base_cost : ℚ := if m.type = .washer then 800 else 600
      acc + base_cost * max (1/10) m.health) 0
  round2 (st.cash + asset_value - st.debt)

-- ===== models.py action types (as used by engine.py) =====

/-- MaintenanceOp.action in models.py. -/
inductive MaintAction
  | inspect
  | repair_cheap
  | repair_premium
  | replace
deriving DecidableEq, Repr

/-- models.MaintenanceOp. -/
structure MaintenanceOp where
  machine_id : ℤ
  action : MaintAction
deriving DecidableEq, Repr

/-- An inspection request {machine_id}, as read by engine.py line 126. -/
structure InspectionReq where
  machine_id : ℤ
deriving DecidableEq, Repr

/-- A partial update of the pricing dict (action.pricing_change). -/
structure PricingChange where
  wash : Option ℚ := none
  dry : Option ℚ := none
deriving DecidableEq, Repr

/-- The agent action as engine.LaundromatEnv.step consumes it.  It carries the
`inspections` list that engine.py line 126 reads and baselines.py line 67
supplies.  models.AgentAction itself does not declare that field; that
mismatch is recorded separately by `agentActionFields` below. -/
structure AgentAction where
  pricing_change : Option PricingChange := none
  buy_inventory : List (String × ℤ) := []
  maintenance_ops : List MaintenanceOp := []
  inspections : List InspectionReq := []
  marketing_change : Option ℚ := none
  pay_debt : ℚ := 0
  update_memory : Option String := none

/-- Field names declared by models.AgentAction (models.py lines 29-35). -/
def agentActionFields : List String :=
  ["pricing_change", "buy_inventory", "maintenance_ops", "marketing_change",
   "pay_debt", "update_memory"]

/-- Attribute names engine.LaundromatEnv.step reads off its action argument
(engine.py lines 94-167). -/
def stepActionAttrs : List String :=
  ["pricing_change", "update_memory", "marketing_change", "pay_debt",
   "buy_inventory", "inspections", "maintenance_ops"]

/-- True when every attribute step reads is a declared field of
models.AgentAction; when false, step raises AttributeError on the first
missing attribute, for any action value. -/
def stepActionAttrsDeclared : Bool :=
  stepActionAttrs.all (fun a => agentActionFields.contains a)

-- ===== hidden mechanic descriptors =====

/-- The hidden-mechanic descriptor: a tagged variant, one constructor per
type tag dispatched in engine._apply_hidden_mechanics. -/
inductive Mech
  | lemon_machines (lemon_ids : List ℤ) (degradation_mult : ℚ)
  | regime_shift (shift_day : ℤ) (phase_2_cost_mult phase_2_demand_mult : ℚ)
  | adaptive_competitor (response_delay : ℤ) (undercut_amount : ℚ)
  | cascading_failures (load_redistribution spatial_damage : ℚ)
  | periodic_inspection (interval : ℤ) (threshold fine : ℚ)
  | repair_fraud
deriving DecidableEq, Repr

/-- The scripted event-tape vocabulary (engine.py lines 223-244); each
constructor stands for the substring the elif chain matches first, and
`unrecognized` for a string matching none of them. -/
inductive Event
  | rent_hike
  | factory_recall
  | competitor_opened
  | health_inspector
  | loan_shark
  | power_outage
  | scammer
  | theft
  | unrecognized
deriving DecidableEq, Repr

-- ===== engine phase functions =====

/-- Python `next((x for x in machines if x.id == id), None)`. -/
def find_machine (machines : List Machine) (id : ℤ) : Option Machine :=
  machines.find? (fun m => m.id == id)

/-- Mutate the first machine with the given id, as the Python object mutation
of the `next(...)` result does. -/
def update_first : List Machine → ℤ → (Machine → Machine) → List Machine
  | [], _, _ => []
  | m :: rest, id, f =>
    if m.id = id then f m :: rest else m :: update_first rest id f

/-- Step 1: pricing / memory / marketing updates (engine.py lines 93-99).
The truthiness tests of the source are kept: a None pricing_change and a None
or empty memory string leave the state alone. -/
def apply_action_updates (a : AgentAction) (st : SimState) : SimState :=
  let st := match a.pricing_change with
    | none => st
    | some pc => { st with pricing :=
        { wash := pc.wash.getD st.pricing.wash, dry := pc.dry.getD st.pricing.dry } }
  let st := match a.update_memory with
    | none => st
    | some s => if s = "" then st else { st with agent_memory := s }
  match a.marketing_change with
  | none => st
  | some mc => { st with marketing_spend := mc }

/-- Step 2a: debt payment (engine.py lines 103-109). -/
def pay_debt_phase (pay : ℚ) (cash debt : ℚ) : ℚ × ℚ × List LogLine :=
  if pay > 0 then
    if cash ≥ pay then (cash - pay, max 0 (debt - pay), [.finance_paid_debt pay])
    else (cash, debt, [.finance_declined])
  else (cash, debt, [])

/-- One iteration of the purchase loop (engine.py lines 113-123).  The source
appends the same PendingOrder twice, lines 121 and 122; the embedding keeps
both appends. -/
def process_purchase (day lead : ℤ) (acc : ℚ × List (ℤ × String × ℤ) × List LogLine)
    (it : String × ℤ) : ℚ × List (ℤ × String × ℤ) × List LogLine :=
  let (cash, pending, logs) := acc
  let (item, qty) := it
  let cost : ℚ :=
    if item = "soap" then (qty : ℚ) * 10
    else if item = "machine_parts" then (qty : ℚ) * 150
    else 0
  let cash := cash - cost
  let arrival := if item = "soap" then day + lead else day + 1
  let pending := pending ++ [(arrival, item, qty), (arrival, item, qty)]
  (cash, pending, logs ++ [.order_bought qty item cost arrival])

/-- Step 2b: inventory purchases (engine.py lines 112-123). -/
def buy_inventory_phase (items : List (String × ℤ)) (day lead : ℤ) (cash : ℚ)
    (pending : List (ℤ × String × ℤ)) : ℚ × List (ℤ × String × ℤ) × List LogLine :=
  items.foldl (process_purchase day lead) (cash, pending, [])

/-- The condition label of an inspection report (engine.py lines 138-152),
from health × 100. -/
def inspection_condition (health_pct : ℚ) : Condition :=
  if health_pct ≥ 80 then .excellent
  else if health_pct ≥ 60 then .good
  else if health_pct ≥ 40 then .fair
  else if health_pct ≥ 20 then .poor
  else .critical

/-- One iteration of the inspection loop (engine.py lines 126-164).  The loop
consumes no random draw, which the absence of any Rng argument makes
structural. -/
def inspect_one (machines : List Machine) (acc : ℚ × List LogLine)
    (req : InspectionReq) : ℚ × List LogLine :=
  let (cash, logs) := acc
  match find_machine machines req.machine_id with
  | none => (cash, logs ++ [.error_machine_not_found req.machine_id])
  | some m =>
    if cash ≥ 10 then
      let cond := inspection_condition (m.health * 100)
      let remaining : ℚ :=
        if m.age_cycles < 2000 then m.health * 2000 else m.health * 1000
      let remaining_low := pyInt (remaining * (8/10))
      let remaining_high := pyInt (remaining * (12/10))
      (cash - 10, logs ++ [.inspect_report m.id cond remaining_low remaining_high])
    else (cash, logs ++ [.inspect_insufficient_funds])

/-- Step 2.5: process inspections (engine.py lines 125-164). -/
def inspection_phase (reqs : List InspectionReq) (machines : List Machine)
    (cash : ℚ) : ℚ × List LogLine :=
  reqs.foldl (inspect_one machines) (cash, [])

/-- Accumulator of the maintenance loop. -/
structure MaintResult where
  machines : List Machine
  cash : ℚ
  hist : List (ℤ × ℤ)
  logs : List LogLine
  rng : Rng

/-- One iteration of the maintenance loop (engine.py lines 167-217). -/
def process_op (cfg : Config) (day : ℤ) (acc : MaintResult) (op : MaintenanceOp) :
    MaintResult :=
  match find_machine acc.machines op.machine_id with
  | none => acc
  | some m =>
    match op.action with
    | .inspect =>
      -- the inspect branch of the source is a bare pass (lines 172-180);
      -- the history update also skips it (line 216)
      acc
    | .repair_cheap =>
      let cost := 50 * cfg.repair_cost_mult
      let (success, rng) :=
        if cfg.grifter_repairs then
          let (r, rng) := acc.rng.random
          (! decide (r < cfg.grift_prob), rng)
        else (true, acc.rng)
      let machines :=
        if success then
          update_first acc.machines op.machine_id
            (fun x => { x with status := .working, health := min 1 (x.health + 3/10) })
        else acc.machines
      let logs := acc.logs ++
        [if success then .maint_cheap_completed m.id else .maint_cheap_failed m.id]
      { machines := machines, cash := acc.cash - cost,
        hist := (op.machine_id, day) :: acc.hist, logs := logs, rng := rng }
    | .repair_premium =>
      let cost := 200 * cfg.repair_cost_mult
      let machines := update_first acc.machines op.machine_id
        (fun x => { x with status := .working, health := 1 })
      { machines := machines, cash := acc.cash - cost,
        hist := (op.machine_id, day) :: acc.hist,
        logs := acc.logs ++ [.maint_premium_restored m.id], rng := acc.rng }
    | .replace =>
      let cost_m : ℚ := if m.type = .washer then 800 else 600
      let machines := update_first acc.machines op.machine_id
        (fun x => { x with age_cycles := 0, health := 1, status := .working })
      { machines := machines, cash := acc.cash - cost_m,
        hist := (op.machine_id, day) :: acc.hist,
        logs := acc.logs ++ [.maint_replaced m.id], rng := acc.rng }

/-- Step 3: process maintenance (engine.py lines 166-217). -/
def maintenance_phase (cfg : Config) (day : ℤ) (ops : List MaintenanceOp)
    (machines : List Machine) (cash : ℚ) (hist : List (ℤ × ℤ)) (rng : Rng) :
    MaintResult :=
  ops.foldl (process_op cfg day)
    { machines := machines, cash := cash, hist := hist, logs := [], rng := rng }

/-- Accumulator of the event-tape loop. -/
structure EventResult where
  cfg : Config
  machines : List Machine
  cash : ℚ
  soap : ℤ
  demand_override : Option ℤ
  logs : List LogLine

/-- One iteration of the event-tape loop (engine.py lines 223-244). -/
def process_event (satisfaction : ℚ) (acc : EventResult) (e : Event) : EventResult :=
  match e with
  | .rent_hike =>
    { acc with cfg := { acc.cfg with rent_mult := acc.cfg.rent_mult * (11/10) } }
  | .factory_recall =>
    { acc with machines :=
        acc.machines.map (fun m => { m with status := .broken, health := 0 }) }
  | .competitor_opened =>
    { acc with cfg := { acc.cfg with competitor_active := true } }
  | .health_inspector =>
    if satisfaction < 90 then
      { acc with cash := acc.cash - 500
                 logs := acc.logs ++ [.fine_failed_health_inspection] }
    else acc
  | .loan_shark => { acc with cash := acc.cash - 500 }
  | .power_outage =>
    { acc with demand_override := some 0
               logs := acc.logs ++ [.critical_power_outage] }
  | .scammer => { acc with cash := acc.cash - 200 }
  | .theft => { acc with soap := pyInt ((acc.soap : ℚ) * (1/2)) }
  | .unrecognized => acc

/-- Result of the throughput-and-soap block. -/
structure ServiceResult where
  actual_washes : ℤ
  actual_dries : ℤ
  lost_customers : ℤ
  soap : ℤ
  logs : List LogLine
deriving Repr

/-- Engine.py lines 278-294: capacity limiting, lost-customer accounting and
soap consumption. -/
def service_phase (demand max_wash_loads max_dry_loads soap : ℤ) : ServiceResult :=
  let actual_washes := min demand max_wash_loads
  let actual_dries := min actual_washes max_dry_loads
  let lost_customers := demand - actual_washes
  let soap_needed : ℚ := (actual_washes : ℚ) * (1/10)
  if (soap : ℚ) < soap_needed then
    let actual_washes2 := pyInt ((soap : ℚ) / (1/10))
    let actual_dries2 := min actual_washes2 actual_dries
    { actual_washes := actual_washes2, actual_dries := actual_dries2,
      lost_customers := lost_customers + (demand - actual_washes2),
      soap := 0, logs := [.critical_out_of_soap] }
  else
    { actual_washes := actual_washes, actual_dries := actual_dries,
      lost_customers := lost_customers,
      soap := soap - pyInt soap_needed, logs := [] }

/-- One iteration of the degradation loop (engine.py lines 320-332). -/
def degrade_machine (deg_mult : ℚ) (actual_washes actual_dries : ℤ)
    (working_washers working_dryers : ℤ) (m : Machine) (rng : Rng) :
    Machine × List LogLine × Rng :=
  if m.status = .working then
    let cycles : ℤ :=
      if m.type = .dryer ∧ working_dryers > 0 then
        pyInt ((actual_dries : ℚ) / (working_dryers : ℚ))
      else if m.type = .washer ∧ working_washers > 0 then
        pyInt ((actual_washes : ℚ) / (working_washers : ℚ))
      else 0
    let m2 := { m with age_cycles := m.age_cycles + cycles }
    let dr := calculate_degradation m2 rng deg_mult
    let m3 := { m2 with health := m2.health - dr.1 * (cycles : ℚ) }
    let gl := generate_logs m3 dr.2
    (gl.2.1, gl.1, gl.2.2)
  else (m, [], rng)

/-- The degradation loop over the machine list, threading the random stream
in source order. -/
def degrade_list (deg_mult : ℚ) (actual_washes actual_dries : ℤ)
    (working_washers working_dryers : ℤ) :
    List Machine → Rng → List Machine × List LogLine × Rng
  | [], rng => ([], [], rng)
  | m :: rest, rng =>
    let dm := degrade_machine deg_mult actual_washes actual_dries
      working_washers working_dryers m rng
    let dl := degrade_list deg_mult actual_washes actual_dries
      working_washers working_dryers rest dm.2.2
    (dm.1 :: dl.1, dm.2.1 ++ dl.2.1, dl.2.2)

-- ===== observation sanitization (engine.py lines 487-541) =====

/-- The per-asset view _sanitize_machines exposes: exactly these five fields
and nothing else. -/
structure ObsMachine where
  id : ℤ
  type : MachineType
  status : MachineStatus
  last_maintenance_day : ℤ
  days_since_maintenance : ℤ
deriving DecidableEq, Repr

structure YesterdayStats where
  customers_served : ℤ
  customers_turned_away : ℤ
  revenue : ℚ
deriving DecidableEq, Repr

/-- The sanitized observation dict of _create_observation. -/
structure Observation where
  day : ℤ
  cash : ℚ
  debt : ℚ
  inventory : Inventory
  pricing : Pricing
  machines : List ObsMachine
  daily_logs : List LogLine
  satisfaction_stars : ℤ
  agent_memory : String
  yesterday_stats : YesterdayStats
deriving DecidableEq, Repr

/-- engine._satisfaction_to_stars. -/
def satisfaction_to_stars (satisfaction : ℚ) : ℤ :=
  if satisfaction ≥ 90 then 5
  else if satisfaction ≥ 75 then 4
  else if satisfaction ≥ 55 then 3
  else if satisfaction ≥ 35 then 2
  else 1

/-- engine._add_accounting_noise: one uniform draw in ±5 percent. -/
def add_accounting_noise (value : ℚ) (rng : Rng) : ℚ × Rng :=
  let (noise, rng) := rng.uniform (-(1/20)) (1/20)
  (round2 (value * (1 + noise)), rng)

/-- Lookup in the maintenance-history dict, default 0. -/
def hist_get (hist : List (ℤ × ℤ)) (id : ℤ) : ℤ := (hist.lookup id).getD 0

/-- engine._sanitize_machines: called with the already incremented day. -/
def sanitize_machines (hist : List (ℤ × ℤ)) (day : ℤ) (machines : List Machine) :
    List ObsMachine :=
  machines.map (fun m =>
    { id := m.id, type := m.type, status := m.status,
      last_maintenance_day := hist_get hist m.id,
      days_since_maintenance := day - hist_get hist m.id })

/-- engine._create_observation. -/
def create_observation (st : SimState) (hist : List (ℤ × ℤ))
    (y_customers y_turnaway : ℤ) (y_revenue : ℚ) (rng : Rng) : Observation × Rng :=
  let (noisy_cash, rng) := add_accounting_noise st.cash rng
  ({ day := st.day, cash := noisy_cash, debt := st.debt,
     inventory := st.inventory, pricing := st.pricing,
     machines := sanitize_machines hist st.day st.machines,
     daily_logs := lastN 10 st.log_history,
     satisfaction_stars := satisfaction_to_stars st.customer_satisfaction,
     agent_memory := st.agent_memory,
     yesterday_stats := { customers_served := y_customers,
                          customers_turned_away := y_turnaway,
                          revenue := y_revenue } }, rng)

/-- The analysis-only block step attaches under the underscore key. -/
structure InternalMetrics where
  daily_profit : ℚ
  nbv : ℚ
  true_satisfaction : ℚ
deriving DecidableEq, Repr

-- ===== engine environment =====

/-- The mutable attributes of LaundromatEnv outside SimulationState. -/
structure Env where
  rng : Rng
  config : Config
  event_tape : List (ℤ × List Event)
  utility_cost_mult : ℚ
  soap_lead_time : ℤ
  pending_orders : List (ℤ × String × ℤ)
  maintenance_history : List (ℤ × ℤ)
  yesterday_customers : ℤ
  yesterday_turnaway : ℤ
  yesterday_revenue : ℚ
  hidden_mechanics : Option Mech
  competitor_prices : Pricing
  state : SimState

/-- Event-tape lookup for a day (engine.py line 220). -/
def tape_get (tape : List (ℤ × List Event)) (day : ℤ) : List Event :=
  (tape.lookup day).getD []

/-- What a step returns: the sanitized observation plus the internal block. -/
structure StepResult where
  obs : Observation
  internal : InternalMetrics

/-- engine.LaundromatEnv.step (engine.py lines 90-364), with every sub-step
in source order.  The hidden-mechanics attribute is carried in Env but, as in
the source, no line of step consults it: _apply_hidden_mechanics has no call
site.  The storefront penalty reads the head of the machine list; the source
would raise on an empty list, which no reachable state has. -/
def step (a : AgentAction) (env : Env) : StepResult × Env :=
  let st := env.state
  let st := apply_action_updates a st
  let (cash, debt, logs) := pay_debt_phase a.pay_debt st.cash st.debt
  let (cash, pending, logs2) :=
    buy_inventory_phase a.buy_inventory st.day env.soap_lead_time cash
      env.pending_orders
  let logs := logs ++ logs2
  let (cash, logs3) := inspection_phase a.inspections st.machines cash
  let logs := logs ++ logs3
  let mr := maintenance_phase env.config st.day a.maintenance_ops st.machines
    cash env.maintenance_history env.rng
  let logs := logs ++ mr.logs
  let er := (tape_get env.event_tape st.day).foldl
    (process_event st.customer_satisfaction)
    { cfg := env.config, machines := mr.machines, cash := mr.cash,
      soap := st.inventory.soap, demand_override := none, logs := [] }
  let cfg := er.cfg
  let logs := logs ++ er.logs
  let (utility_cost_mult, logs) :=
    if cfg.hyper_inflation ∧ st.day % cfg.inflation_interval = 0 then
      (env.utility_cost_mult * (11/10),
       logs ++ [.inflation_spike (env.utility_cost_mult * (11/10))])
    else (env.utility_cost_mult, logs)
  let (base_d_val, rng) := mr.rng.randint 20 40
  let base_d_val := if cfg.heatwave then base_d_val * 3 else base_d_val
  let base_d_val := pyInt ((base_d_val : ℚ) * cfg.base_demand_mult)
  let (demand, rng) :=
    calculate_demand base_d_val st.pricing st.customer_satisfaction rng cfg
  let demand := er.demand_override.getD demand
  let working_washers : ℤ :=
    ((er.machines.filter fun m =>
        decide (m.type = .washer ∧ m.status = .working)).length : ℤ)
  let working_dryers : ℤ :=
    ((er.machines.filter fun m =>
        decide (m.type = .dryer ∧ m.status = .working)).length : ℤ)
  let (max_cycles, logs) :=
    if cfg.water_rationing then
      (pyInt ((10 : ℚ) * (1/2)), logs ++ [.water_rationing_in_effect])
    else ((10 : ℤ), logs)
  let sr := service_phase demand (working_washers * max_cycles)
    (working_dryers * max_cycles) er.soap
  let logs := logs ++ sr.logs
  let income := (sr.actual_washes : ℚ) * st.pricing.wash
    + (sr.actual_dries : ℚ) * st.pricing.dry
  let utility_bill :=
    ((sr.actual_washes : ℚ) + (sr.actual_dries : ℚ)) * (1/2) * utility_cost_mult
  let daily_profit := income - utility_bill - 50 * cfg.rent_mult
    - st.marketing_spend
  let cash := er.cash + daily_profit
  let debt := if debt > 0 then debt + debt * cfg.interest_rate else debt
  let cash := if cash < 0 then cash - |cash| * (cfg.interest_rate * 2) else cash
  let (machines, dlogs, rng) := degrade_list cfg.degradation_mult
    sr.actual_washes sr.actual_dries working_washers working_dryers
    er.machines rng
  let logs := logs ++ dlogs
  let sat_change : ℚ :=
    if sr.lost_customers > 0 then -((sr.lost_customers : ℚ) * (1/2)) else 0
  let sat_change :=
    if machines.head?.elim false (fun m => decide (m.health < 1/2)) then
      sat_change - 1
    else sat_change
  let sat_change := sat_change + st.marketing_spend / 10
  let satisfaction := max 0 (min 100 (st.customer_satisfaction + sat_change))
  let st' : SimState :=
    { day := st.day + 1, cash := cash, debt := debt,
      inventory := { soap := sr.soap,
                     machine_parts := st.inventory.machine_parts },
      pricing := st.pricing, marketing_spend := st.marketing_spend,
      customer_satisfaction := satisfaction, machines := machines,
      log_history := logs, agent_memory := st.agent_memory }
  let (obs, rng) :=
    create_observation st' mr.hist sr.actual_washes sr.lost_customers income rng
  ({ obs := obs,
     internal := { daily_profit := round2 daily_profit,
                   nbv := calculate_net_business_value st',
                   true_satisfaction := satisfaction } },
   { env with rng := rng, config := cfg,
              utility_cost_mult := utility_cost_mult,
              pending_orders := pending, maintenance_history := mr.hist,
              yesterday_customers := sr.actual_washes,
              yesterday_turnaway := sr.lost_customers,
              yesterday_revenue := income, state := st' })

-- ===== engine construction (engine.py lines 11-88, generator.py) =====

/-- engine._initialize_state (engine.py lines 55-88). -/
def init_state (cfg : Config) : SimState :=
  let is_slumlord := cfg.slumlord_start
  let cash := cfg.initial_cash.getD (if is_slumlord then 500 else 2000)
  let debt := cfg.initial_debt.getD (if is_slumlord then 10000 else 0)
  let machines := (List.range 10).map (fun i0 =>
    let i : ℤ := (i0 : ℤ) + 1
    let m_type := if i ≤ 6 then MachineType.washer else MachineType.dryer
    if is_slumlord ∧ i % 2 = 0 then
      { id := i, type := m_type, status := .broken, age_cycles := 3000,
        health := 0 }
    else
      { id := i, type := m_type, status := .working,
        age_cycles := if cfg.lemon_law then 50 else 0, health := 1 })
  { day := 1, cash := cash, debt := debt,
    inventory := { soap := 50, machine_parts := 2 },
    pricing := { wash := 5, dry := 4 }, marketing_spend := 0,
    machines := machines }

/-- The JSON scenario descriptor: each top-level key may be absent.  A missing
or syntactically malformed file is the `none` of `Option ScenarioFile`. -/
structure ScenarioFile where
  id : Option String := none
  name : Option String := none
  seed : Option ℤ := none
  config_overrides : Option Config := none
  event_tape : Option (List (ℤ × List Event)) := none

/-- A well-formed scenario file in the sense of the spec: all five documented
keys present. -/
def ScenarioFile.wellFormed (f : ScenarioFile) : Prop :=
  f.id.isSome ∧ f.name.isSome ∧ f.seed.isSome ∧ f.config_overrides.isSome ∧
    f.event_tape.isSome

/-- Modelled from the spec: engine.py line 33 imports `get_scenario_secret`
from generator.py, but no file of the repository defines that function; only
this call site exists.  The spec says hidden-mechanic descriptors are
supplied out-of-band, keyed by scenario id, never embedded in the scenario
file, so the store is modelled as a lookup in an out-of-band table passed as
a parameter. -/
def get_scenario_secret (secrets : List (String × Mech)) (scenario_id : String) :
    Option Mech :=
  secrets.lookup scenario_id

/-- The attribute values __init__ sets up from a parsed scenario (engine.py
lines 15-39).  competitor_prices carries the _init_hidden_mechanics value for
the adaptive-competitor variant and is otherwise an unread default. -/
def mkEnv (cfg : Config) (tape : List (ℤ × List Event)) (secret : Option Mech)
    (rng : Rng) : Env :=
  { rng := rng, config := cfg, event_tape := tape,
    utility_cost_mult := 1,
    soap_lead_time := if cfg.supply_shock then 14 else 1,
    pending_orders := [], maintenance_history := [],
    yesterday_customers := 0, yesterday_turnaway := 0,
    yesterday_revenue := 0,
    hidden_mechanics := secret,
    competitor_prices := { wash := 5, dry := 4 },
    state := init_state cfg }

/-- engine.LaundromatEnv.__init__ (engine.py lines 11-39).  A missing or
unparsable file, or a file lacking the seed, config_overrides or id key, is a
raised exception, hence `none`; event_tape is read with a get-default.  Line
16 builds np.random.RandomState(seed), which raises ValueError for any
integer seed outside [0, 2^32), so construction also fails for out-of-range
seeds; the content of the seeded stream is abstracted by the stream
argument. -/
def engine_init (secrets : List (String × Mech)) (file : Option ScenarioFile)
    (rng : Rng) : Option Env :=
  match file with
  | none => none
  | some f =>
    match f.seed, f.config_overrides, f.id with
    | some s, some cfg, some sid =>
      if 0 ≤ s ∧ s < 2 ^ 32 then
        some (mkEnv cfg (f.event_tape.getD []) (get_scenario_secret secrets sid) rng)
      else none
    | _, _, _ => none

-- ===== hidden mechanics engine (engine.py lines 366-485) =====

/-- The lemon loop of _apply_lemon_logic: flagged working machines take one
extra degradation decrement. -/
def lemon_fold (mult : ℚ) (lemon_ids : List ℤ) :
    List Machine → Rng → List Machine × Rng
  | [], rng => ([], rng)
  | m :: rest, rng =>
    if lemon_ids.contains m.id ∧ m.status = .working then
      let (deg, rng) := calculate_degradation m rng mult
      let (rest', rng) := lemon_fold mult lemon_ids rest rng
      ({ m with health := m.health - deg } :: rest', rng)
    else
      let (rest', rng) := lemon_fold mult lemon_ids rest rng
      (m :: rest', rng)

/-- engine._apply_lemon_logic. -/
def apply_lemon_logic (lemon_ids : List ℤ) (mult : ℚ) (env : Env) : Env :=
  let (machines, rng) := lemon_fold mult lemon_ids env.state.machines env.rng
  { env with rng := rng, state := { env.state with machines := machines } }

/-- engine._apply_regime_shift. -/
def apply_regime_shift (shift_day : ℤ) (cost_mult demand_mult : ℚ) (env : Env) :
    Env :=
  let env :=
    if env.state.day = shift_day then
      { env with state := { env.state with
          log_history := env.state.log_history ++ [.news_regime_shift] } }
    else env
  if env.state.day ≥ shift_day then
    { env with utility_cost_mult := cost_mult,
               config := { env.config with base_demand_mult := demand_mult } }
  else env

/-- engine._apply_competitor_logic. -/
def apply_competitor_logic (response_delay : ℤ) (undercut : ℚ) (env : Env) :
    Env :=
  if env.state.day % response_delay = 0 then
    let p := env.state.pricing
    let cp := env.competitor_prices
    let (cpw, logs) :=
      if p.wash > 11/2 then
        (p.wash - undercut, [LogLine.rumor_competitor_prices])
      else if p.wash < 9/2 then (p.wash, ([] : List LogLine))
      else (cp.wash, [])
    let cpd :=
      if p.dry > 9/2 then p.dry - undercut
      else if p.dry < 7/2 then p.dry
      else cp.dry
    { env with competitor_prices := { wash := cpw, dry := cpd },
               config := { env.config with
                 competitor_active := decide (cpw < p.wash) },
               state := { env.state with
                 log_history := env.state.log_history ++ logs } }
  else env

/-- Load-redistribution pass of _apply_cascade_logic: every working machine
takes `calculate_degradation × extra_load` extra damage. -/
def cascade_load (extra_load : ℚ) : List Machine → Rng → List Machine × Rng
  | [], rng => ([], rng)
  | m :: rest, rng =>
    if m.status = .working then
      let (deg, rng) := calculate_degradation m rng 1
      let (rest', rng) := cascade_load extra_load rest rng
      ({ m with health := m.health - deg * extra_load } :: rest', rng)
    else
      let (rest', rng) := cascade_load extra_load rest rng
      (m :: rest', rng)

/-- Subtract spatial damage from the first working machine with the given id;
report whether one was found. -/
def update_first_working : List Machine → ℤ → ℚ → List Machine × Bool
  | [], _, _ => ([], false)
  | m :: rest, id, dmg =>
    if m.id = id ∧ m.status = .working then
      ({ m with health := m.health - dmg } :: rest, true)
    else
      let (rest', hit) := update_first_working rest id dmg
      (m :: rest', hit)

/-- One adjacent id of the spatial-damage pass. -/
def cascade_adj (dmg : ℚ) (b_id adj_id : ℤ)
    (machines : List Machine) (rng : Rng) (logs : List LogLine) :
    List Machine × Rng × List LogLine :=
  let (machines, hit) := update_first_working machines adj_id dmg
  if hit then
    let (r, rng) := rng.random
    if r < 3/10 then (machines, rng, logs ++ [.cascade_wear adj_id b_id])
    else (machines, rng, logs)
  else (machines, rng, logs)

/-- Spatial-damage pass over the broken ids. -/
def cascade_broken (dmg : ℚ) :
    List ℤ → List Machine → Rng → List LogLine →
    List Machine × Rng × List LogLine
  | [], machines, rng, logs => (machines, rng, logs)
  | b :: rest, machines, rng, logs =>
    let (machines, rng, logs) := cascade_adj dmg b (b - 1) machines rng logs
    let (machines, rng, logs) := cascade_adj dmg b (b + 1) machines rng logs
    cascade_broken dmg rest machines rng logs

/-- engine._apply_cascade_logic. -/
def apply_cascade_logic (load_mult spatial_dmg : ℚ) (env : Env) : Env :=
  let broken_ids :=
    ((env.state.machines.filter fun m => decide (m.status = .broken)).map
      Machine.id)
  if broken_ids.isEmpty then env
  else
    let extra_load := (broken_ids.length : ℚ) * load_mult
    let (machines, rng) := cascade_load extra_load env.state.machines env.rng
    let (machines, rng, logs) :=
      cascade_broken spatial_dmg broken_ids machines rng []
    { env with rng := rng
               state := { env.state with
                 machines := machines
                 log_history := env.state.log_history ++ logs } }

/-- engine._apply_inspection_logic. -/
def apply_inspection_logic (interval : ℤ) (threshold fine : ℚ) (env : Env) :
    Env :=
  if env.state.day % interval = 0 then
    if env.state.customer_satisfaction < threshold then
      { env with state := { env.state with
          cash := env.state.cash - fine
          log_history := env.state.log_history ++
            [.health_inspection_failed fine,
             .health_inspection_unsat_report] } }
    else
      { env with state := { env.state with
          log_history := env.state.log_history ++
            [.health_inspection_passed] } }
  else env

/-- engine._apply_hidden_mechanics (engine.py lines 366-391): the variant
dispatch.  The source defines it and every helper, but step has no call to
it. -/
def apply_hidden_mechanics (env : Env) : Env :=
  match env.hidden_mechanics with
  | none => env
  | some (.lemon_machines ids mult) => apply_lemon_logic ids mult env
  | some (.regime_shift d cm dm) => apply_regime_shift d cm dm env
  | some (.adaptive_competitor rd u) => apply_competitor_logic rd u env
  | some (.cascading_failures lm sd) => apply_cascade_logic lm sd env
  | some (.periodic_inspection i t f) => apply_inspection_logic i t f env
  | some .repair_fraud => env

-- ===== concrete inputs used by witnesses and counterexamples =====

/-- A constant draw stream: every float draw is q, every raw integer draw
is z. -/
def constRng (q : ℚ) (z : ℤ) : Rng :=
  { flt := fun _ => q, intStream := fun _ => z, k := 0 }

/-- The stream with float draws 1/2 and integer draws 0: no spike, no
symptom roll fires, the accounting noise is zero, randint 20 40 yields 20
and randint (-5) 6 yields -5. -/
def demoRng : Rng := constRng (1/2) 0

/-- A well-formed scenario file shaped like the S-01 control scenario. -/
def demoFile : ScenarioFile :=
  { id := some "S-01", name := some "The Control", seed := some 42,
    config_overrides := some {}, event_tape := some [] }

/-- A scenario file with all five keys present but an integer seed that
np.random.RandomState rejects with ValueError. -/
def negSeedFile : ScenarioFile :=
  { id := some "S-NEG", name := some "Negative Seed", seed := some (-1),
    config_overrides := some {}, event_tape := some [] }

/-- The freshly constructed control engine. -/
def demoEnv : Env := mkEnv {} [] none demoRng

/-- An engine whose single washer is deep in the wear-out regime with health
1/100: day-1 demand under demoRng is 15, capacity 10, so the machine runs 10
cycles and loses 10 × (1/1000)×(1 + (510/1000)²) = 12601/1000000 health. -/
def wearEnv : Env :=
  { demoEnv with state :=
    { day := 1, cash := 1000, debt := 0,
      inventory := { soap := 50, machine_parts := 2 },
      pricing := { wash := 5, dry := 4 }, marketing_spend := 0,
      machines := [{ id := 1, type := .washer, status := .working,
                     age_cycles := 2500, health := 1/100 }] } }

/-- A control engine endowed with a periodic-inspection hidden mechanic that
fires on every day and always fines. -/
def demoMechEnv : Env :=
  mkEnv {} [] (some (.periodic_inspection 1 101 500)) demoRng

/-- The cost engine.py charges for one maintenance operation: the fixed cost
times the scenario multiplier for the repairs, the category base cost for a
replacement, nothing for the dead inspect branch. -/
def documented_cost (cfg : Config) (machines : List Machine)
    (op : MaintenanceOp) : ℚ :=
  match op.action with
  | .inspect => 0
  | .repair_cheap => 50 * cfg.repair_cost_mult
  | .repair_premium => 200 * cfg.repair_cost_mult
  | .replace =>
    match find_machine machines op.machine_id with
    | some m => if m.type = .washer then 800 else 600
    | none => 0

/-- The per-machine facts preserved by every step phase: health capped at 1,
the unused maintenance status absent, and a broken machine at or below zero
health. -/
def MachInv (m : Machine) : Prop :=
  m.health ≤ 1 ∧ m.status ≠ .maintenance ∧ (m.status = .broken → m.health ≤ 0)

instance : DecidablePred MachInv := fun m =>
  decidable_of_iff
    (m.health ≤ 1 ∧ m.status ≠ .maintenance ∧ (m.status = .broken → m.health ≤ 0))
    Iff.rfl

/-- The action that buys five units of soap and nothing else. -/
def buySoapAct : AgentAction := { buy_inventory := [("soap", 5)] }

/-- A maintenance-loop accumulator over the fresh control machines. -/
def demoAcc : MaintResult :=
  { machines := (init_state {}).machines, cash := 2000, hist := [],
    logs := [], rng := demoRng }

-- ===== theorems =====

-- Batteries marks the rational operations irreducible; concrete evaluation
-- by decide needs them unfolded.
attribute [local semireducible] Rat.add Rat.sub Rat.mul Rat.inv Rat.ofScientific

/-- C1 counterexample: this scenario file carries all five documented keys
(id, name, seed, config_overrides, event_tape), yet engine construction
fails, because np.random.RandomState(-1) at engine.py line 16 raises
ValueError — so construction does not succeed on every well-formed file. -/
theorem engine_init_negative_seed_fails :
    negSeedFile.wellFormed ∧
    engine_init [] (some negSeedFile) demoRng = none := by
  constructor
  · exact ⟨rfl, rfl, rfl, rfl, rfl⟩
  · simp [engine_init, negSeedFile, get_scenario_secret]

/-- C1 amended: for every well-formed scenario file (id, name, seed,
config_overrides, event_tape all present) whose integer seed lies in the
range [0, 2^32) that np.random.RandomState accepts, engine construction
succeeds and the hidden-mechanic descriptor is looked up out-of-band, keyed
by the scenario id; construction fails closed on a missing or malformed
file and on an out-of-range seed. -/
theorem engine_init_wellformed_succeeds (secrets : List (String × Mech))
    (f : ScenarioFile) (rng : Rng) (h : f.wellFormed)
    (hseed : ∀ s, f.seed = some s → 0 ≤ s ∧ s < 2 ^ 32) :
    ∃ sid, f.id = some sid ∧
      engine_init secrets (some f) rng =
        some (mkEnv (f.config_overrides.getD {}) (f.event_tape.getD [])
          (get_scenario_secret secrets sid) rng) := by
  rcases Option.isSome_iff_exists.mp h.1 with ⟨sid, hsid⟩
  rcases Option.isSome_iff_exists.mp h.2.2.1 with ⟨s, hs⟩
  rcases Option.isSome_iff_exists.mp h.2.2.2.1 with ⟨cfg, hcfg⟩
  refine ⟨sid, hsid, ?_⟩
  have h2 := hseed s hs
  simp only [engine_init, hsid, hs, hcfg]
  rw [if_pos h2]
  rfl

/-- Witness for C1 amended at the concrete control scenario file (seed 42). -/
theorem engine_init_wellformed_succeeds_witness :
    demoFile.wellFormed ∧
    (∀ s, demoFile.seed = some s → 0 ≤ s ∧ s < 2 ^ 32) ∧
    (∃ sid, demoFile.id = some sid ∧
      engine_init [] (some demoFile) demoRng =
        some (mkEnv (demoFile.config_overrides.getD {})
          (demoFile.event_tape.getD [])
          (get_scenario_secret [] sid) demoRng)) :=
  ⟨by constructor <;> simp [demoFile],
   by
     intro s hs
     simp only [demoFile, Option.some.injEq] at hs
     subst hs
     refine ⟨by norm_num, by norm_num⟩,
   engine_init_wellformed_succeeds [] demoFile demoRng
     (by constructor <;> simp [demoFile])
     (by
       intro s hs
       simp only [demoFile, Option.some.injEq] at hs
       subst hs
       refine ⟨by norm_num, by norm_num⟩)⟩

set_option maxRecDepth 4000 in
/-- C2: buying 5 soap on day 1 deducts the cost immediately, but the engine
enqueues the same PendingOrder twice (engine.py lines 121-122), and no code
of step ever delivers a pending order: after the day-2 step the two orders
whose arrival day 2 ≤ current day 2 are still queued and the soap inventory
reflects only consumption, never the purchased 5 units. -/
theorem pending_orders_double_and_never_delivered :
    (buy_inventory_phase [("soap", 5)] 1 1 2000 []).1 = 2000 - 5 * 10 ∧
    (step buySoapAct demoEnv).2.pending_orders
      = [(2, "soap", 5), (2, "soap", 5)] ∧
    (step {} (step buySoapAct demoEnv).2).2.pending_orders
      = [(2, "soap", 5), (2, "soap", 5)] ∧
    (step {} (step buySoapAct demoEnv).2).2.state.inventory.soap = 48 := by
  refine ⟨by decide, by decide, by decide, by decide⟩

/-- C3: engine.LaundromatEnv.step reads action.inspections (engine.py line
126), an attribute models.AgentAction never declares, so the step of the
source raises AttributeError for every action value, including the empty
default action; the only undeclared attribute it reads is `inspections`. -/
theorem step_reads_undeclared_action_attr :
    stepActionAttrsDeclared = false ∧
    stepActionAttrs.filter (fun a => !(agentActionFields.contains a))
      = ["inspections"] := by
  refine ⟨by decide, by decide⟩

/-- C5 counterexample: after one step of wearEnv, the single machine has
health -2601/1000000 < 0 — the engine never clamps health from below, so
health ∈ [0,1] fails. -/
theorem health_lower_bound_fails :
    ((step {} wearEnv).2.state.machines.any fun m => decide (m.health < 0))
      = true := by decide

/-- C6 counterexample: demand 30, wash capacity 20, soap 1 (10 loads): the
final primary throughput is 10, but the engine reports 30 lost customers,
not demand - throughput = 20. -/
theorem lost_customers_not_demand_minus_throughput :
    (service_phase 30 20 20 1).actual_washes = 10 ∧
    (service_phase 30 20 20 1).lost_customers ≠
      30 - (service_phase 30 20 20 1).actual_washes := by
  refine ⟨by decide, by decide⟩

/-- C6 amended: when soap suffices, lost customers equal demand minus the
final primary throughput; when soap is insufficient, the engine adds
demand minus the inventory-clamped throughput on top of the capacity
shortfall already counted, so the capacity shortfall is counted twice. -/
theorem lost_customers_accounting (demand maxw maxd soap : ℤ) :
    ((¬ ((soap : ℚ) < ((min demand maxw : ℤ) : ℚ) * (1/10))) →
      (service_phase demand maxw maxd soap).lost_customers
        = demand - (service_phase demand maxw maxd soap).actual_washes) ∧
    (((soap : ℚ) < ((min demand maxw : ℤ) : ℚ) * (1/10)) →
      (service_phase demand maxw maxd soap).lost_customers
        = (demand - min demand maxw)
          + (demand - (service_phase demand maxw maxd soap).actual_washes)) := by
  constructor
  · intro h
    simp only [service_phase]
    rw [if_neg h]
  · intro h
    simp only [service_phase]
    rw [if_pos h]

/-- Witness for C6 amended in the shortage case. -/
theorem lost_customers_accounting_witness :
    ((1 : ℚ) < ((min 30 20 : ℤ) : ℚ) * (1/10)) ∧
    (service_phase 30 20 20 1).lost_customers
      = (30 - min 30 20)
        + (30 - (service_phase 30 20 20 1).actual_washes) :=
  ⟨by decide, (lost_customers_accounting 30 20 20 1).2 (by decide)⟩

/-- C8 counterexample: an inspection request for the unknown machine id 99
is not silent — it emits the not-found error log line. -/
theorem unknown_inspection_id_logs_error :
    (inspection_phase [{ machine_id := 99 }] (init_state {}).machines 2000).2
      = [.error_machine_not_found 99] := by decide

/-- C8 amended: a maintenance operation naming an unknown asset id is a full
silent no-op, but an inspection request naming an unknown asset id, while
leaving all state unchanged, appends a not-found ERROR log line
(engine.py line 129). -/
theorem unknown_asset_id_handling (cfg : Config) (day : ℤ) (acc : MaintResult)
    (machines : List Machine) (cash : ℚ) (logs : List LogLine) (id : ℤ)
    (act : MaintAction)
    (h1 : find_machine acc.machines id = none)
    (h2 : find_machine machines id = none) :
    process_op cfg day acc { machine_id := id, action := act } = acc ∧
    inspect_one machines (cash, logs) { machine_id := id }
      = (cash, logs ++ [.error_machine_not_found id]) := by
  constructor
  · simp only [process_op, h1]
  · simp only [inspect_one, h2]

/-- Witness for C8 amended at the unknown id 99 on the fresh machines. -/
theorem unknown_asset_id_handling_witness :
    find_machine (init_state {}).machines 99 = none ∧
    (process_op {} 1 demoAcc { machine_id := 99, action := .repair_cheap }
        = demoAcc ∧
      inspect_one (init_state {}).machines (2000, []) { machine_id := 99 }
        = (2000, [] ++ [.error_machine_not_found 99])) :=
  ⟨by decide,
   unknown_asset_id_handling {} 1 demoAcc (init_state {}).machines 2000 []
     99 .repair_cheap (by decide) (by decide)⟩

/-- C10: a fee-paid inspection of an existing machine logs the remaining-life
interval [int(r × 0.8), int(r × 1.2)] with r = health × 2000 for
age_cycles < 2000 and r = health × 1000 otherwise, deducting exactly the 10
fee; the loop consumes no random draw, as the Rng-free type of
`inspect_one` shows. -/
theorem inspection_life_estimate (machines : List Machine) (cash : ℚ)
    (logs : List LogLine) (id : ℤ) (m : Machine)
    (hfind : find_machine machines id = some m) (hcash : cash ≥ 10) :
    inspect_one machines (cash, logs) { machine_id := id }
      = (cash - 10,
         logs ++ [LogLine.inspect_report m.id
           (inspection_condition (m.health * 100))
           (pyInt ((if m.age_cycles < 2000 then m.health * 2000
                    else m.health * 1000) * (8/10)))
           (pyInt ((if m.age_cycles < 2000 then m.health * 2000
                    else m.health * 1000) * (12/10)))]) := by
  simp only [inspect_one, hfind, if_pos hcash]

/-- Witness for C10 on the fresh machine 1 (health 1, age 0): estimate
interval [1600, 2400]. -/
theorem inspection_life_estimate_witness :
    find_machine (init_state {}).machines 1
      = some { id := 1, type := .washer, status := .working,
               age_cycles := 0, health := 1 } ∧
    (2000 : ℚ) ≥ 10 ∧
    inspect_one (init_state {}).machines (2000, []) { machine_id := 1 }
      = (2000 - 10,
         [] ++ [LogLine.inspect_report 1 (inspection_condition (1 * 100))
           (pyInt ((if (0 : ℤ) < 2000 then (1 : ℚ) * 2000 else 1 * 1000) * (8/10)))
           (pyInt ((if (0 : ℤ) < 2000 then (1 : ℚ) * 2000 else 1 * 1000) * (12/10)))]) :=
  ⟨by decide, by decide,
   inspection_life_estimate (init_state {}).machines 2000 [] 1
     { id := 1, type := .washer, status := .working, age_cycles := 0,
       health := 1 }
     (by decide) (by decide)⟩

/-- C4: no line of step consults the hidden-mechanic descriptor — swapping it
for any other descriptor changes neither the returned observation and
metrics nor any other part of the resulting engine state, even though
_apply_hidden_mechanics itself is not the identity (a periodic-inspection
mechanic that fires would deduct its fine). -/
theorem step_never_applies_hidden_mechanics :
    (∀ (a : AgentAction) (env : Env) (m : Option Mech),
        (step a { env with hidden_mechanics := m }).1 = (step a env).1 ∧
        (step a { env with hidden_mechanics := m }).2
          = { (step a env).2 with hidden_mechanics := m }) ∧
    (apply_hidden_mechanics demoMechEnv).state.cash
      ≠ demoMechEnv.state.cash := by
  refine ⟨fun a env m => ⟨rfl, rfl⟩, by decide⟩

/-- The type of the machine found at an id is unchanged by an update_first
whose function keeps id and type. -/
theorem find_update_first (l : List Machine) (id id2 : ℤ) (f : Machine → Machine)
    (hid : ∀ m, (f m).id = m.id) (hty : ∀ m, (f m).type = m.type) :
    (find_machine (update_first l id f) id2).map Machine.type
      = (find_machine l id2).map Machine.type := by
  induction l with
  | nil => rfl
  | cons m rest ih =>
    simp only [update_first]
    by_cases h : m.id = id
    · simp only [if_pos h, find_machine, List.find?_cons]
      by_cases h2 : m.id = id2
      · have : (f m).id == id2 := by simp [hid, h2]
        simp [this, hid, h2, hty]
      · have : ((f m).id == id2) = false := by simp [hid, h2]
        have h2' : (m.id == id2) = false := by simp [h2]
        simp [this, h2']
    · simp only [if_neg h, find_machine, List.find?_cons]
      by_cases h2 : m.id = id2
      · simp [h2]
      · have h2' : (m.id == id2) = false := by simp [h2]
        simp only [h2', cond_false]
        exact ih

/-- One maintenance operation never changes which machine types sit at which
ids. -/
theorem process_op_find_type (cfg : Config) (day : ℤ) (acc : MaintResult)
    (op : MaintenanceOp) (id2 : ℤ) :
    (find_machine (process_op cfg day acc op).machines id2).map Machine.type
      = (find_machine acc.machines id2).map Machine.type := by
  cases hfind : find_machine acc.machines op.machine_id with
  | none => simp [process_op, hfind]
  | some m =>
    cases hact : op.action with
    | inspect => simp [process_op, hfind, hact]
    | repair_cheap =>
      simp only [process_op, hfind, hact]
      split <;> split <;>
        first
          | exact find_update_first _ _ _ _ (fun _ => rfl) (fun _ => rfl)
          | rfl
    | repair_premium =>
      simp only [process_op, hfind, hact]
      exact find_update_first _ _ _ _ (fun _ => rfl) (fun _ => rfl)
    | replace =>
      simp only [process_op, hfind, hact]
      exact find_update_first _ _ _ _ (fun _ => rfl) (fun _ => rfl)

/-- documented_cost only looks at the type of the machine at the named id. -/
theorem documented_cost_congr (cfg : Config) (l l' : List Machine)
    (op : MaintenanceOp)
    (h : (find_machine l' op.machine_id).map Machine.type
          = (find_machine l op.machine_id).map Machine.type) :
    documented_cost cfg l' op = documented_cost cfg l op := by
  cases hop : op.action <;> simp only [documented_cost, hop]
  cases h1 : find_machine l' op.machine_id <;>
    cases h2 : find_machine l op.machine_id <;>
      first
        | (simp [h1, h2] at h ⊢; rw [h])
        | simp [h1, h2] at h ⊢

/-- One maintenance operation on an existing machine changes cash by exactly
its documented cost, on every random stream. -/
theorem process_op_cash (cfg : Config) (day : ℤ) (acc : MaintResult)
    (op : MaintenanceOp)
    (h : (find_machine acc.machines op.machine_id).isSome) :
    (process_op cfg day acc op).cash
      = acc.cash - documented_cost cfg acc.machines op := by
  rcases Option.isSome_iff_exists.mp h with ⟨m, hm⟩
  cases hact : op.action with
  | inspect => simp [process_op, hm, hact, documented_cost]
  | repair_cheap => simp only [process_op, hm, hact, documented_cost]
  | repair_premium => simp [process_op, hm, hact, documented_cost]
  | replace => simp [process_op, hm, hact, documented_cost]

/-- The maintenance loop deducts exactly the sum of documented costs when
every named id exists. -/
theorem maintenance_fold_cash (cfg : Config) (day : ℤ)
    (ops : List MaintenanceOp) (acc : MaintResult)
    (hex : ∀ op ∈ ops, (find_machine acc.machines op.machine_id).isSome) :
    (ops.foldl (process_op cfg day) acc).cash
      = acc.cash - (ops.map (documented_cost cfg acc.machines)).sum := by
  induction ops generalizing acc with
  | nil => simp
  | cons op rest ih =>
    have hshape : ∀ id2,
        (find_machine (process_op cfg day acc op).machines id2).map Machine.type
          = (find_machine acc.machines id2).map Machine.type :=
      fun id2 => process_op_find_type cfg day acc op id2
    have hex' : ∀ op' ∈ rest,
        (find_machine (process_op cfg day acc op).machines
          op'.machine_id).isSome := by
      intro op' hop'
      have := hshape op'.machine_id
      have hs := hex op' (List.mem_cons_of_mem _ hop')
      rcases Option.isSome_iff_exists.mp hs with ⟨m, hm⟩
      rw [hm] at this
      cases hfind : find_machine (process_op cfg day acc op).machines
          op'.machine_id with
      | none => rw [hfind] at this; simp at this
      | some _ => simp
    rw [List.foldl_cons, ih _ hex']
    rw [process_op_cash cfg day acc op (hex op (List.mem_cons_self _ _))]
    have hmapeq : rest.map (documented_cost cfg (process_op cfg day acc op).machines)
        = rest.map (documented_cost cfg acc.machines) := by
      apply List.map_congr_left
      intro op' _
      exact documented_cost_congr cfg acc.machines _ op' (hshape op'.machine_id)
    rw [hmapeq, List.map_cons, List.sum_cons]
    ring

/-- C7: over any list of maintenance operations whose asset ids all exist,
cash decreases by exactly the sum of the documented costs — 50 × multiplier
per cheap repair, 200 × multiplier per premium repair, the category base
cost per replacement — once per operation, for every random stream, hence
regardless of the stochastic grifter outcome. -/
theorem maintenance_cost_charged_once (cfg : Config) (day : ℤ)
    (ops : List MaintenanceOp) (machines : List Machine) (cash : ℚ)
    (hist : List (ℤ × ℤ)) (rng : Rng)
    (hex : ∀ op ∈ ops, (find_machine machines op.machine_id).isSome) :
    (maintenance_phase cfg day ops machines cash hist rng).cash
      = cash - (ops.map (documented_cost cfg machines)).sum :=
  maintenance_fold_cash cfg day ops
    { machines := machines, cash := cash, hist := hist, logs := [],
      rng := rng } hex

/-- Witness for C7: a grifter-scenario cheap repair whose random draw makes
it fail, plus a replacement; cash still drops by exactly 50 + 600. -/
theorem maintenance_cost_charged_once_witness :
    (∀ op ∈ [MaintenanceOp.mk 1 .repair_cheap, MaintenanceOp.mk 7 .replace],
        (find_machine (init_state {}).machines op.machine_id).isSome) ∧
    (maintenance_phase { grifter_repairs := true } 1
        [MaintenanceOp.mk 1 .repair_cheap, MaintenanceOp.mk 7 .replace]
        (init_state {}).machines 2000 [] (constRng 0 0)).cash
      = 2000 - ([MaintenanceOp.mk 1 .repair_cheap, MaintenanceOp.mk 7 .replace].map
          (documented_cost { grifter_repairs := true }
            (init_state {}).machines)).sum :=
  ⟨by decide,
   maintenance_cost_charged_once { grifter_repairs := true } 1
     [MaintenanceOp.mk 1 .repair_cheap, MaintenanceOp.mk 7 .replace]
     (init_state {}).machines 2000 [] (constRng 0 0) (by decide)⟩

/-- C9: the sanitized observation exposes per machine exactly
{id, type, status, last-maintenance-day, days-since-maintenance} (the
ObsMachine record has no other field); it is invariant under any change of
the hidden per-machine fields (health, age_cycles, efficiency) and under any
change of satisfaction that keeps the star band, and the star rating lies in
1..5 — so no observation field equals raw health, age_cycles or the exact
satisfaction.  The observation is computed from SimState alone, which holds
no hidden-mechanic parameter (the descriptor lives in Env and never reaches
create_observation, whose type shows it). -/
theorem observation_no_leakage (st : SimState) (hist : List (ℤ × ℤ))
    (yc yt : ℤ) (yr : ℚ) (rng : Rng)
    (f : Machine → Machine)
    (hf : ∀ m, (f m).id = m.id ∧ (f m).type = m.type ∧ (f m).status = m.status)
    (s1 s2 : ℚ) (hs : satisfaction_to_stars s1 = satisfaction_to_stars s2) :
    ((create_observation st hist yc yt yr rng).1.machines
      = st.machines.map (fun m =>
          { id := m.id, type := m.type, status := m.status,
            last_maintenance_day := hist_get hist m.id,
            days_since_maintenance := st.day - hist_get hist m.id })) ∧
    ((create_observation { st with machines := st.machines.map f }
        hist yc yt yr rng).1
      = (create_observation st hist yc yt yr rng).1) ∧
    ((create_observation { st with customer_satisfaction := s1 }
        hist yc yt yr rng).1
      = (create_observation { st with customer_satisfaction := s2 }
        hist yc yt yr rng).1) ∧
    1 ≤ (create_observation st hist yc yt yr rng).1.satisfaction_stars ∧
    (create_observation st hist yc yt yr rng).1.satisfaction_stars ≤ 5 := by
  refine ⟨rfl, ?_, ?_, ?_, ?_⟩
  · have hsan : sanitize_machines hist st.day (st.machines.map f)
        = sanitize_machines hist st.day st.machines := by
      simp only [sanitize_machines, List.map_map]
      apply List.map_congr_left
      intro m _
      simp [Function.comp, (hf m).1, (hf m).2.1, (hf m).2.2]
    simp [create_observation, hsan, add_accounting_noise]
  · simp [create_observation, hs]
  · show 1 ≤ satisfaction_to_stars st.customer_satisfaction
    unfold satisfaction_to_stars
    split_ifs <;> norm_num
  · show satisfaction_to_stars st.customer_satisfaction ≤ 5
    unfold satisfaction_to_stars
    split_ifs <;> norm_num

/-- Witness for C9 on the fresh control state, hiding function that rewrites
health and age, and satisfactions 92 and 99 in the same star band. -/
theorem observation_no_leakage_witness :
    ((create_observation (init_state {}) [] 0 0 0 demoRng).1.machines
      = (init_state {}).machines.map (fun m =>
          { id := m.id, type := m.type, status := m.status,
            last_maintenance_day := hist_get [] m.id,
            days_since_maintenance := (init_state {}).day - hist_get [] m.id })) ∧
    ((create_observation
        { (init_state {}) with
          machines := (init_state {}).machines.map
              (fun m => { m with health := 1/2, age_cycles := 1234 }) }
        [] 0 0 0 demoRng).1
      = (create_observation (init_state {}) [] 0 0 0 demoRng).1) ∧
    ((create_observation { (init_state {}) with customer_satisfaction := 92 }
        [] 0 0 0 demoRng).1
      = (create_observation { (init_state {}) with customer_satisfaction := 99 }
        [] 0 0 0 demoRng).1) ∧
    1 ≤ (create_observation (init_state {}) [] 0 0 0 demoRng).1.satisfaction_stars ∧
    (create_observation (init_state {}) [] 0 0 0 demoRng).1.satisfaction_stars ≤ 5 :=
  observation_no_leakage (init_state {}) [] 0 0 0 demoRng
    (fun m => { m with health := 1/2, age_cycles := 1234 })
    (fun _ => ⟨rfl, rfl, rfl⟩) 92 99 (by decide)

/-- Python int of a non-negative rational is non-negative. -/
theorem pyInt_nonneg (q : ℚ) (h : 0 ≤ q) : 0 ≤ pyInt q := by
  simp only [pyInt, if_pos h]
  exact Int.floor_nonneg.mpr h

/-- calculate_demand ends in a max with 0. -/
theorem calculate_demand_nonneg (b : ℤ) (p : Pricing) (s : ℚ) (rng : Rng)
    (cfg : Config) : 0 ≤ (calculate_demand b p s rng cfg).1 :=
  le_max_left 0 _

/-- Every branch of the bathtub curve yields a non-negative decrement for a
non-negative multiplier. -/
theorem calculate_degradation_nonneg (m : Machine) (rng : Rng) (mult : ℚ)
    (h : 0 ≤ mult) : 0 ≤ (calculate_degradation m rng mult).1 := by
  unfold calculate_degradation
  simp only [Rng.random]
  split_ifs <;> exact mul_nonneg (by positivity) h

/-- generate_logs never changes health. -/
theorem generate_logs_health (m : Machine) (rng : Rng) :
    (generate_logs m rng).2.1.health = m.health := by
  unfold generate_logs
  simp only [Rng.random, Rng.choiceIdx]
  split_ifs <;> simp

/-- generate_logs flips status to broken exactly on health ≤ 0. -/
theorem generate_logs_status (m : Machine) (rng : Rng) :
    (generate_logs m rng).2.1.status
      = (if m.health ≤ 0 then .broken else m.status) := by
  unfold generate_logs
  simp only [Rng.random, Rng.choiceIdx]
  split_ifs <;> simp

/-- After one degradation-loop iteration a machine respects the health cap
and is broken exactly when its health is at or below zero. -/
theorem degrade_machine_spec (deg_mult : ℚ) (aw ad ww wd : ℤ) (m : Machine)
    (rng : Rng) (hmult : 0 ≤ deg_mult) (haw : 0 ≤ aw) (had : 0 ≤ ad)
    (hm : MachInv m) :
    (degrade_machine deg_mult aw ad ww wd m rng).1.health ≤ 1 ∧
    ((degrade_machine deg_mult aw ad ww wd m rng).1.status
        = .broken ↔
      (degrade_machine deg_mult aw ad ww wd m rng).1.health ≤ 0) := by
  obtain ⟨h1, h2, h3⟩ := hm
  unfold degrade_machine
  by_cases hst : m.status = .working
  · rw [if_pos hst]
    simp only [generate_logs_health, generate_logs_status]
    generalize hcy :
      (if m.type = MachineType.dryer ∧ wd > 0 then pyInt ((ad : ℚ) / (wd : ℚ))
       else if m.type = MachineType.washer ∧ ww > 0 then
         pyInt ((aw : ℚ) / (ww : ℚ))
       else 0) = cycles
    have hc0 : (0 : ℤ) ≤ cycles := by
      rw [← hcy]
      split_ifs with hA hB
      · exact pyInt_nonneg _ (div_nonneg (by exact_mod_cast had)
          (by exact_mod_cast le_of_lt hA.2))
      · exact pyInt_nonneg _ (div_nonneg (by exact_mod_cast haw)
          (by exact_mod_cast le_of_lt hB.2))
      · exact le_refl 0
    have hdeg : 0 ≤ (calculate_degradation
        { m with age_cycles := m.age_cycles + cycles } rng deg_mult).1 :=
      calculate_degradation_nonneg _ rng deg_mult hmult
    have hcq : (0 : ℚ) ≤ (cycles : ℚ) := by exact_mod_cast hc0
    have hprod : (0 : ℚ) ≤ (calculate_degradation
        { m with age_cycles := m.age_cycles + cycles } rng deg_mult).1
          * (cycles : ℚ) := mul_nonneg hdeg hcq
    constructor
    · linarith
    · rw [hst]
      split_ifs with hbr
      · simp [hbr]
      · constructor
        · intro hcontra
          exact absurd hcontra (by decide)
        · intro hcontra
          exact absurd hcontra hbr
  · rw [if_neg hst]
    have hbr : m.status = .broken := by
      cases hmm : m.status
      · exact absurd hmm hst
      · rfl
      · exact absurd hmm h2
    refine ⟨h1, ?_⟩
    rw [hbr]
    simp [h3 hbr]

/-- The degradation loop establishes the broken-iff-health invariant for the
whole machine list. -/
theorem degrade_list_spec (deg_mult : ℚ) (aw ad ww wd : ℤ)
    (hmult : 0 ≤ deg_mult) (haw : 0 ≤ aw) (had : 0 ≤ ad) :
    ∀ (ms : List Machine) (rng : Rng), (∀ m ∈ ms, MachInv m) →
      ∀ m ∈ (degrade_list deg_mult aw ad ww wd ms rng).1,
        m.health ≤ 1 ∧ (m.status = .broken ↔ m.health ≤ 0) := by
  intro ms
  induction ms with
  | nil =>
    intro rng _ m hm
    simp [degrade_list] at hm
  | cons m0 rest ih =>
    intro rng hinv m hm
    simp only [degrade_list, List.mem_cons] at hm
    rcases hm with h | h
    · subst h
      exact degrade_machine_spec deg_mult aw ad ww wd m0 rng hmult haw had
        (hinv m0 (List.mem_cons_self _ _))
    · exact ih _ (fun x hx => hinv x (List.mem_cons_of_mem _ hx)) m h

/-- update_first preserves the machine facts when the update does. -/
theorem update_first_machinv (l : List Machine) (id : ℤ) (f : Machine → Machine)
    (hf : ∀ x, MachInv (f x)) (h : ∀ m ∈ l, MachInv m) :
    ∀ m ∈ update_first l id f, MachInv m := by
  induction l with
  | nil => simp [update_first]
  | cons m0 rest ih =>
    intro m hm
    simp only [update_first] at hm
    by_cases hid : m0.id = id
    · rw [if_pos hid] at hm
      rcases List.mem_cons.mp hm with h' | h'
      · subst h'; exact hf m0
      · exact h m (List.mem_cons_of_mem _ h')
    · rw [if_neg hid] at hm
      rcases List.mem_cons.mp hm with h' | h'
      · subst h'; exact h _ (List.mem_cons_self _ _)
      · exact ih (fun x hx => h x (List.mem_cons_of_mem _ hx)) m h'

/-- Every maintenance operation leaves the machine facts intact: repairs cap
health at 1 and set status working, replacement resets to a fresh machine. -/
theorem process_op_machinv (cfg : Config) (day : ℤ) (acc : MaintResult)
    (op : MaintenanceOp) (h : ∀ m ∈ acc.machines, MachInv m) :
    ∀ m ∈ (process_op cfg day acc op).machines, MachInv m := by
  cases hfind : find_machine acc.machines op.machine_id with
  | none => simpa [process_op, hfind] using h
  | some m0 =>
    cases hact : op.action with
    | inspect => simpa [process_op, hfind, hact] using h
    | repair_cheap =>
      simp only [process_op, hfind, hact]
      split <;> split
      all_goals
        first
          | exact update_first_machinv _ _ _
              (fun x => ⟨min_le_left _ _, by simp, by simp⟩) h
          | exact h
    | repair_premium =>
      simp only [process_op, hfind, hact]
      exact update_first_machinv _ _ _
        (fun x => ⟨le_refl 1, by simp, by simp⟩) h
    | replace =>
      simp only [process_op, hfind, hact]
      exact update_first_machinv _ _ _
        (fun x => ⟨le_refl 1, by simp, by simp⟩) h

/-- The whole maintenance loop preserves the machine facts. -/
theorem maintenance_fold_machinv (cfg : Config) (day : ℤ)
    (ops : List MaintenanceOp) (acc : MaintResult)
    (h : ∀ m ∈ acc.machines, MachInv m) :
    ∀ m ∈ (ops.foldl (process_op cfg day) acc).machines, MachInv m := by
  induction ops generalizing acc with
  | nil => simpa using h
  | cons op rest ih =>
    rw [List.foldl_cons]
    exact ih _ (process_op_machinv cfg day acc op h)

/-- Restatement of the fold preservation for the maintenance_phase wrapper. -/
theorem maintenance_phase_machinv (cfg : Config) (day : ℤ)
    (ops : List MaintenanceOp) (machines : List Machine) (cash : ℚ)
    (hist : List (ℤ × ℤ)) (rng : Rng) (h : ∀ m ∈ machines, MachInv m) :
    ∀ m ∈ (maintenance_phase cfg day ops machines cash hist rng).machines,
      MachInv m :=
  maintenance_fold_machinv cfg day ops _ h

/-- One scripted event preserves the machine facts (factory recall breaks
every machine at health 0, which satisfies them). -/
theorem process_event_machinv (sat : ℚ) (acc : EventResult) (e : Event)
    (h : ∀ m ∈ acc.machines, MachInv m) :
    ∀ m ∈ (process_event sat acc e).machines, MachInv m := by
  cases e with
  | rent_hike => exact h
  | factory_recall =>
    intro m hm
    simp only [process_event] at hm
    rcases List.mem_map.mp hm with ⟨x, _, hx⟩
    subst hx
    exact ⟨by norm_num, by simp, fun _ => le_refl 0⟩
  | competitor_opened => exact h
  | health_inspector =>
    simp only [process_event]
    split_ifs <;> exact h
  | loan_shark => exact h
  | power_outage => exact h
  | scammer => exact h
  | theft => exact h
  | unrecognized => exact h

/-- The event-tape loop preserves the machine facts. -/
theorem event_fold_machinv (sat : ℚ) (events : List Event) (acc : EventResult)
    (h : ∀ m ∈ acc.machines, MachInv m) :
    ∀ m ∈ (events.foldl (process_event sat) acc).machines, MachInv m := by
  induction events generalizing acc with
  | nil => exact h
  | cons e rest ih =>
    rw [List.foldl_cons]
    exact ih _ (process_event_machinv sat acc e h)

/-- One scripted event keeps the soap count non-negative (theft halves it
with a floor). -/
theorem process_event_soap (sat : ℚ) (acc : EventResult) (e : Event)
    (h : 0 ≤ acc.soap) : 0 ≤ (process_event sat acc e).soap := by
  cases e with
  | rent_hike => exact h
  | factory_recall => exact h
  | competitor_opened => exact h
  | health_inspector =>
    simp only [process_event]
    split_ifs <;> exact h
  | loan_shark => exact h
  | power_outage => exact h
  | scammer => exact h
  | theft => exact pyInt_nonneg _ (mul_nonneg (by exact_mod_cast h) (by norm_num))
  | unrecognized => exact h

/-- The event-tape loop keeps the soap count non-negative. -/
theorem event_fold_soap (sat : ℚ) (events : List Event) (acc : EventResult)
    (h : 0 ≤ acc.soap) : 0 ≤ (events.foldl (process_event sat) acc).soap := by
  induction events generalizing acc with
  | nil => exact h
  | cons e rest ih =>
    rw [List.foldl_cons]
    exact ih _ (process_event_soap sat acc e h)

/-- The only demand override any event installs is zero. -/
theorem process_event_override (sat : ℚ) (acc : EventResult) (e : Event)
    (h : acc.demand_override = none ∨ acc.demand_override = some 0) :
    (process_event sat acc e).demand_override = none ∨
      (process_event sat acc e).demand_override = some 0 := by
  cases e with
  | rent_hike => exact h
  | factory_recall => exact h
  | competitor_opened => exact h
  | health_inspector =>
    simp only [process_event]
    split_ifs <;> exact h
  | loan_shark => exact h
  | power_outage => exact Or.inr rfl
  | scammer => exact h
  | theft => exact h
  | unrecognized => exact h

/-- The event-tape loop installs at most the zero demand override. -/
theorem event_fold_override (sat : ℚ) (events : List Event) (acc : EventResult)
    (h : acc.demand_override = none ∨ acc.demand_override = some 0) :
    (events.foldl (process_event sat) acc).demand_override = none ∨
      (events.foldl (process_event sat) acc).demand_override = some 0 := by
  induction events generalizing acc with
  | nil => exact h
  | cons e rest ih =>
    rw [List.foldl_cons]
    exact ih _ (process_event_override sat acc e h)

/-- No event touches the degradation multiplier. -/
theorem process_event_deg_mult (sat : ℚ) (acc : EventResult) (e : Event) :
    (process_event sat acc e).cfg.degradation_mult
      = acc.cfg.degradation_mult := by
  cases e with
  | health_inspector =>
    simp only [process_event]
    split_ifs <;> rfl
  | rent_hike => rfl
  | factory_recall => rfl
  | competitor_opened => rfl
  | loan_shark => rfl
  | power_outage => rfl
  | scammer => rfl
  | theft => rfl
  | unrecognized => rfl

/-- The event-tape loop keeps the degradation multiplier. -/
theorem event_fold_deg_mult (sat : ℚ) (events : List Event) (acc : EventResult) :
    (events.foldl (process_event sat) acc).cfg.degradation_mult
      = acc.cfg.degradation_mult := by
  induction events generalizing acc with
  | nil => rfl
  | cons e rest ih =>
    rw [List.foldl_cons, ih, process_event_deg_mult]

/-- Throughputs out of the service block are non-negative for non-negative
demand, capacities and soap. -/
theorem service_phase_nonneg (demand maxw maxd soap : ℤ)
    (hd : 0 ≤ demand) (hw : 0 ≤ maxw) (hdd : 0 ≤ maxd) (hs : 0 ≤ soap) :
    0 ≤ (service_phase demand maxw maxd soap).actual_washes ∧
    0 ≤ (service_phase demand maxw maxd soap).actual_dries := by
  simp only [service_phase]
  split_ifs with h
  · constructor
    · exact pyInt_nonneg _ (div_nonneg (by exact_mod_cast hs) (by norm_num))
    · exact le_min (pyInt_nonneg _ (div_nonneg (by exact_mod_cast hs) (by norm_num)))
        (le_min (le_min hd hw) hdd)
  · exact ⟨le_min hd hw, le_min (le_min hd hw) hdd⟩

/-- The max-cycles value (10, or 5 under water rationing) is non-negative. -/
theorem mc_pair_nonneg (c : Prop) [Decidable c] (l1 l2 : List LogLine) :
    0 ≤ (if c then (pyInt ((10 : ℚ) * (1/2)), l1) else ((10 : ℤ), l2)).1 := by
  split
  · show (0 : ℤ) ≤ pyInt ((10 : ℚ) * (1/2))
    decide
  · show (0 : ℤ) ≤ 10
    decide

/-- The demand after the optional power-outage override stays non-negative. -/
theorem getD_demand_nonneg (o : Option ℤ) (d : ℤ)
    (ho : o = none ∨ o = some 0) (hd : 0 ≤ d) : 0 ≤ o.getD d := by
  rcases ho with h | h <;> simp [h, hd]

/-- Step 1 of the transition never touches machines, day or inventory. -/
theorem apply_action_updates_parts (a : AgentAction) (st : SimState) :
    (apply_action_updates a st).machines = st.machines ∧
    (apply_action_updates a st).day = st.day ∧
    (apply_action_updates a st).inventory = st.inventory := by
  unfold apply_action_updates
  rcases a.pricing_change with _ | pc <;> rcases a.update_memory with _ | s <;>
    rcases a.marketing_change with _ | mc <;> simp <;> split_ifs <;> simp

/-- C5 amended: with no lower clamp anywhere, health may leave [0,1] from
below (see the counterexample); what does hold after every step, for any
action and any random stream, is that health stays capped at 1 (given a
non-negative degradation multiplier and non-negative soap) and a machine is
broken if and only if its health is at or below zero, assuming the pre-state
machines satisfied health ≤ 1, no machine used the unused maintenance
status, and broken machines were already at health ≤ 0. -/
theorem health_capped_and_broken_iff (a : AgentAction) (env : Env)
    (hmult : 0 ≤ env.config.degradation_mult)
    (hsoap : 0 ≤ env.state.inventory.soap)
    (hinv : ∀ m ∈ env.state.machines, MachInv m) :
    ∀ m ∈ (step a env).2.state.machines,
      m.health ≤ 1 ∧ (m.status = .broken ↔ m.health ≤ 0) := by
  obtain ⟨hmach, hday, hinvty⟩ := apply_action_updates_parts a env.state
  intro m hm
  simp only [step] at hm
  refine degrade_list_spec _ _ _ _ _ ?_ ?_ ?_ _ _ ?_ m hm
  · rw [event_fold_deg_mult]
    exact hmult
  · refine (service_phase_nonneg _ _ _ _ ?_ ?_ ?_ ?_).1
    · exact getD_demand_nonneg _ _ (event_fold_override _ _ _ (Or.inl rfl))
        (calculate_demand_nonneg _ _ _ _ _)
    · exact mul_nonneg (Int.natCast_nonneg _) (mc_pair_nonneg _ _ _)
    · exact mul_nonneg (Int.natCast_nonneg _) (mc_pair_nonneg _ _ _)
    · refine event_fold_soap _ _ _ ?_
      show 0 ≤ (apply_action_updates a env.state).inventory.soap
      rw [hinvty]
      exact hsoap
  · refine (service_phase_nonneg _ _ _ _ ?_ ?_ ?_ ?_).2
    · exact getD_demand_nonneg _ _ (event_fold_override _ _ _ (Or.inl rfl))
        (calculate_demand_nonneg _ _ _ _ _)
    · exact mul_nonneg (Int.natCast_nonneg _) (mc_pair_nonneg _ _ _)
    · exact mul_nonneg (Int.natCast_nonneg _) (mc_pair_nonneg _ _ _)
    · refine event_fold_soap _ _ _ ?_
      show 0 ≤ (apply_action_updates a env.state).inventory.soap
      rw [hinvty]
      exact hsoap
  · refine event_fold_machinv _ _ _ ?_
    refine maintenance_phase_machinv _ _ _ _ _ _ _ ?_
    show ∀ m ∈ (apply_action_updates a env.state).machines, MachInv m
    rw [hmach]
    exact hinv

/-- Witness for C5 amended on the fresh control engine with the empty
action. -/
theorem health_capped_and_broken_iff_witness :
    (0 ≤ demoEnv.config.degradation_mult) ∧
    (0 ≤ demoEnv.state.inventory.soap) ∧
    (∀ m ∈ demoEnv.state.machines, MachInv m) ∧
    ∀ m ∈ (step {} demoEnv).2.state.machines,
      m.health ≤ 1 ∧ (m.status = .broken ↔ m.health ≤ 0) :=
  ⟨by decide, by decide, by decide,
   health_capped_and_broken_iff {} demoEnv (by decide) (by decide) (by decide)⟩
